import Mathlib

/-!
Shallow embedding of the Secure Telemetry Ingestion Protocol of the
noirbackend repository: `decryptPayload` / `encryptPayload` from
`src/utils/encryption.js` and the orchestrator `saveVapiCallLog` from
`src/controller/vapi.Controller.js`.

Modelling conventions.
* Node's `crypto` library and `JSON` are external primitives; they are
  modelled symbolically: `crypto.pbkdf2Sync`, `crypto.createCipheriv`
  (AES-256-CBC) and `crypto.createHmac` become injective constructors that
  record exactly the arguments the source passes, and `JSON.stringify` /
  `JSON.parse` become the `Plain.json` constructor and its pattern-match
  inverse.  A raw string that is not a well-formed ciphertext fails to
  decrypt (in reality: invalid hex or a padding fault, the overwhelmingly
  probable outcome), and a wrong key or wrong IV likewise fails.
* JavaScript's `try`/`catch` is modelled by returning the catch-clause
  result (`DResult.decryptionError`) at every point where the source throws.
* `Date.now()` and `crypto.randomBytes` are nondeterministic inputs and are
  passed as explicit arguments (`now`, `salt`).
* Calls to the key-derivation, cipher, HMAC and persistence collaborators
  are recorded in an event trace, so call-count properties are statable.
-/

namespace NoirBackend

/-- JSON values as produced by `JSON.parse` and consumed by `JSON.stringify`.
Numbers are modelled as integers: the protocol only manipulates integer
millisecond timestamps, and no claim depends on fractional values.  Objects
are insertion-ordered association lists, as in JavaScript. -/
inductive JVal where
  | null : JVal
  | bool : Bool → JVal
  | num : Int → JVal
  | str : String → JVal
  | arr : List JVal → JVal
  | obj : List (String × JVal) → JVal

/-- Property read `o[k]` on a JavaScript object modelled as an ordered
association list (keys are unique in real JS objects; the first match is
returned). -/
def getField : List (String × JVal) → String → Option JVal
  | [], _ => none
  | (k', v) :: rest, k => if k' = k then some v else getField rest k

/-- Property write as performed by an object literal `{...o, k: v}`: if `k`
is already present its value is replaced in place (JS keeps the original
insertion position), otherwise the pair is appended. -/
def setField : List (String × JVal) → String → JVal → List (String × JVal)
  | [], k, v => [(k, v)]
  | (k', v') :: rest, k, v =>
    if k' = k then (k, v) :: rest else (k', v') :: setField rest k v

/-- The `delete o[k]` operation: removes the key. -/
def deleteField : List (String × JVal) → String → List (String × JVal)
  | [], _ => []
  | (k', v) :: rest, k =>
    if k' = k then deleteField rest k else (k', v) :: deleteField rest k

/-- Property read `payload[k]` on an arbitrary JS value: objects use their
fields, primitives and arrays yield `undefined` (`none`).  The throwing
`null` case is handled separately by the callers, before any read. -/
def jsGet : JVal → String → Option JVal
  | .obj fs, k => getField fs k
  | _, _ => none

/-- The statement `delete payload[k]`: a field removal on objects and a
no-op on primitives and arrays. -/
def jsDelete : JVal → String → JVal
  | .obj fs, k => .obj (deleteField fs k)
  | v, _ => v

/-- JavaScript truthiness of an optionally-present value, as in
`if (!payload.callId)`. -/
def jsTruthy : Option JVal → Bool
  | none => false
  | some .null => false
  | some (.bool b) => b
  | some (.num n) => if n = 0 then false else true
  | some (.str s) => if s = "" then false else true
  | some (.arr _) => true
  | some (.obj _) => true

/-- Symbolic 32-byte key produced by `crypto.pbkdf2Sync`: the constructor
records exactly the arguments the source passes (password, salt,
iterations, key length, digest). -/
inductive DerivedKey where
  | pbkdf2 : String → String → Nat → Nat → String → DerivedKey
deriving DecidableEq

/-- Plaintext handed to the cipher: either the `JSON.stringify` serialization
of a value, or an arbitrary string that is not the serialization of any
value (so that `JSON.parse` on it throws). -/
inductive Plain where
  | json : JVal → Plain
  | rawStr : String → Plain

/-- Symbolic AES-256-CBC ciphertext (a nonempty hex string on the wire):
records the key, IV and plaintext passed to
`crypto.createCipheriv("aes-256-cbc", key, iv)`. -/
inductive CipherText where
  | enc : DerivedKey → String → Plain → CipherText

/-- A value of the `signature` wire field: either a symbolic HMAC-SHA256 hex
digest (recording key and message of `crypto.createHmac("sha256", key)`)
or some other client-supplied string. -/
inductive SigVal where
  | hmacSha256 : String → CipherText → SigVal
  | raw : String → SigVal

/-- A JavaScript value that may occupy the `encrypted` or `encryptedData`
wire field: a boolean, a well-formed hex ciphertext, or some other string
(which is not valid ciphertext under any key). -/
inductive EncField where
  | bool : Bool → EncField
  | ct : CipherText → EncField
  | str : String → EncField

/-- The request body as far as the ingestion path reads it.  `decryptPayload`
destructures only `encrypted`, `salt` and `signature`; the documented
request shape also lists `encryptedData` and `iv` fields, carried here so
that theorems can state that the code never reads them.  `none` models an
absent field (`undefined`). -/
structure Envelope where
  encrypted : Option EncField := none
  salt : Option String := none
  signature : Option SigVal := none
  iv : Option String := none
  encryptedData : Option EncField := none

/-- Default of `process.env.ENCRYPTION_KEY` (encryption.js line 8). -/
def ENCRYPTION_KEY : String := "restaurantAI_secret_key_2024_secure_vapi_encryption"

/-- Default of `process.env.ENCRYPTION_IV` (encryption.js line 9). -/
def ENCRYPTION_IV : String := "restaurant_ai_initialization_vector"

/-- String.prototype.padEnd with a single-character pad. -/
def padEnd (s : String) (n : Nat) (c : Char) : String :=
  if n ≤ s.length then s else s ++ String.mk (List.replicate (n - s.length) c)

/-- The fixed IV bytes `Buffer.from(ENCRYPTION_IV.padEnd(16, "0").slice(0, 16),
"utf8")`, built identically at encryption.js lines 43-46 and 122-125.  The
configuration string is ASCII, so the 16 characters are 16 bytes. -/
def ivString : String := (padEnd ENCRYPTION_IV 16 '0').take 16

/-- The key-derivation call `crypto.pbkdf2Sync(ENCRYPTION_KEY, saltBuffer,
1000, 32, "sha256")`, identical at encryption.js lines 40 and 119.  The
salt is kept in its hex-string form; `Buffer.from(salt, "hex")` is a fixed
injective decoding, so the derived key is the same pure function of
(secret, salt) on both sides. -/
def deriveKey (salt : String) : DerivedKey :=
  DerivedKey.pbkdf2 ENCRYPTION_KEY salt 1000 32 "sha256"

/-- The replay window `5 * 60 * 1000` ms (encryption.js line 62). -/
def maxAge : Int := 5 * 60 * 1000

/-- Observable collaborator calls, recorded for call-count properties. -/
inductive Ev where
  | hmacCall : Ev
  | kdfCall : Ev
  | decipherCall : Ev
  | persistCall : Ev
deriving DecidableEq

/-- Structured result of `decryptPayload`: the three result shapes the
source can return (lines 81-86, 66-72, 89-93). -/
inductive DResult where
  | success : JVal → DResult
  | replay : Int → Int → DResult
  | decryptionError : String → DResult

/-- The `code` field of the result object returned by `decryptPayload`. -/
def DResult.code : DResult → String
  | .success _ => "DECRYPTION_SUCCESS"
  | .replay _ _ => "REPLAY_ATTACK_DETECTED"
  | .decryptionError _ => "DECRYPTION_ERROR"

/-- Models the JavaScript subtraction `now - payload._timestamp` (line 61).
`none` is NaN: subtracting `undefined` or a non-numeric value.  `null` and
booleans coerce to 0 and 0/1 as in JS.  Strings are modelled as NaN; JS
would additionally coerce numeric strings, a case no theorem relies on. -/
def jsSubTs (now : Int) : Option JVal → Option Int
  | some (.num t) => some (now - t)
  | some .null => some now
  | some (.bool b) => some (now - (if b then 1 else 0))
  | _ => none

/-- Lines 59-86 of `decryptPayload`: freshness check on the parsed payload,
then stripping of the internal fields.  A `null` payload throws at the
property read `payload._timestamp` (caught as a decryption error).  When
the age is NaN, `age > maxAge` is false and processing continues. -/
def afterParse (payload : JVal) (now : Int) (evs : List Ev) : DResult × List Ev :=
  match payload with
  | .null => (.decryptionError "Cannot read properties of null", evs)
  | _ =>
    match jsSubTs now (jsGet payload "_timestamp") with
    | some age =>
      if age > maxAge then
        (.replay age maxAge, evs)
      else
        (.success (jsDelete (jsDelete payload "_timestamp") "_version"), evs)
    | none =>
      (.success (jsDelete (jsDelete payload "_timestamp") "_version"), evs)

/-- Lines 36-86 of `decryptPayload`, after the signature step: salt
reconstruction (throws on an absent salt), key derivation, IV construction,
decipher, JSON parse, then `afterParse`.  The decipher branch: a symbolic
ciphertext decrypts exactly when it was produced with the same key and IV;
anything else (other string, boolean, `undefined`) throws. -/
def decryptAfterSig (e : Envelope) (now : Int) (evs : List Ev) : DResult × List Ev :=
  match e.salt with
  | none => (.decryptionError "salt argument must not be undefined", evs)
  | some salt =>
    let derivedKey := deriveKey salt
    let evs1 := evs ++ [Ev.kdfCall]
    match e.encrypted with
    | some (.ct (.enc k iv plain)) =>
      if k = derivedKey ∧ iv = ivString then
        match plain with
        | .json payload => afterParse payload now (evs1 ++ [Ev.decipherCall])
        | .rawStr _ =>
          (.decryptionError "Unexpected token in JSON", evs1 ++ [Ev.decipherCall])
      else
        (.decryptionError "bad decrypt", evs1 ++ [Ev.decipherCall])
    | some (.str _) =>
      (.decryptionError "bad decrypt", evs1 ++ [Ev.decipherCall])
    | _ =>
      (.decryptionError "decipher input type error", evs1 ++ [Ev.decipherCall])

/-- Shallow embedding of `decryptPayload` (encryption.js lines 16-95).  The
signature step (lines 23-34) is non-fatal: when a signature is present the
HMAC is recomputed over the `encrypted` field and compared, but the result
of the comparison is only logged, so no branch here depends on it.
`hmac.update(encrypted)` throws when `encrypted` is not string-valued. -/
def decryptPayload (encryptedData : Envelope) (now : Int) : DResult × List Ev :=
  match encryptedData.signature with
  | some _ =>
    match encryptedData.encrypted with
    | some (.ct _) => decryptAfterSig encryptedData now [Ev.hmacCall]
    | some (.str _) => decryptAfterSig encryptedData now [Ev.hmacCall]
    | _ => (.decryptionError "hmac update type error", [Ev.hmacCall])
  | none => decryptAfterSig encryptedData now []

/-- The object returned by `encryptPayload` (encryption.js lines 137-144). -/
structure EncResult where
  encrypted : CipherText
  salt : String
  signature : SigVal
  algorithm : String
  timestamp : Int
  success : Bool

/-- The object literal `{...payload, _timestamp: timestamp, _version: "1.0"}`
(encryption.js lines 107-111).  Spreading a primitive contributes no
fields. -/
def withMeta (payload : JVal) (timestamp : Int) : JVal :=
  match payload with
  | .obj fs =>
    .obj (setField (setField fs "_timestamp" (.num timestamp)) "_version" (.str "1.0"))
  | _ =>
    .obj (setField (setField [] "_timestamp" (.num timestamp)) "_version" (.str "1.0"))

/-- Shallow embedding of `encryptPayload` (encryption.js lines 102-152).
`Date.now()` and `crypto.randomBytes(16).toString("hex")` are external
inputs, passed as `now` and `salt`.  No step of the symbolic pipeline
throws, so the catch clause (lines 145-151) is unreachable. -/
def encryptPayload (payload : JVal) (now : Int) (salt : String) : EncResult :=
  let dataWithTimestamp := withMeta payload now
  let derivedKey := deriveKey salt
  let encrypted := CipherText.enc derivedKey ivString (Plain.json dataWithTimestamp)
  { encrypted := encrypted
    salt := salt
    signature := SigVal.hmacSha256 ENCRYPTION_KEY encrypted
    algorithm := "AES-256-CBC"
    timestamp := now
    success := true }

/-- The wire envelope a client submits after calling `encryptPayload`: the
controller hands `req.body` straight to `decryptPayload`, which
destructures only `encrypted`, `salt` and `signature`. -/
def toEnvelope (e : EncResult) : Envelope :=
  { encrypted := some (.ct e.encrypted)
    salt := some e.salt
    signature := some e.signature
    iv := none
    encryptedData := none }

/-- JavaScript truthiness of the `encrypted` request field, as in
`if (!requestBody.encrypted)`: a well-formed ciphertext is a nonempty hex
string, hence truthy. -/
def truthyEnc : Option EncField → Bool
  | none => false
  | some (.bool b) => b
  | some (.ct _) => true
  | some (.str s) => if s = "" then false else true

/-- The Firestore `vapiCallLogs` collection: documents keyed by id. -/
def Store := List (String × JVal)

/-- Firestore `collection(...).doc(id).set(doc)`: a keyed overwrite — the
document is replaced if the id exists and created otherwise (the upsert
contract of the persistence collaborator). -/
def storeSet (db : Store) (id : String) (doc : JVal) : Store :=
  setField db id doc

/-- Lookup of a document by id. -/
def storeGet (db : Store) (id : String) : Option JVal :=
  getField db id

/-- Number of records stored under an id. -/
def countKey (db : Store) (id : String) : Nat :=
  (db.map Prod.fst).count id

/-- The `admin.firestore.FieldValue.serverTimestamp()` sentinel. -/
def serverTimestampSentinel : JVal := .str "FieldValue.serverTimestamp"

/-- The `encryptionMetadata` sub-object written at controller lines 506-511. -/
def encryptionMetadataDoc (tsStr : String) : JVal :=
  .obj [("encrypted", .bool true), ("algorithm", .str "AES-256-CBC"),
        ("verified", .bool true), ("decryptedAt", .str tsStr)]

/-- The document written by `db.collection("vapiCallLogs").doc(payload.callId)
.set({...payload, createdAt, savedAt, encryptionMetadata})` (controller
lines 502-511). -/
def persistedDoc (payload : JVal) (tsStr : String) : JVal :=
  match payload with
  | .obj fs =>
    .obj (setField (setField (setField fs "createdAt" serverTimestampSentinel)
      "savedAt" (.str tsStr)) "encryptionMetadata" (encryptionMetadataDoc tsStr))
  | _ =>
    .obj (setField (setField (setField [] "createdAt" serverTimestampSentinel)
      "savedAt" (.str tsStr)) "encryptionMetadata" (encryptionMetadataDoc tsStr))

/-- The HTTP response as far as the claims observe it: status and `code`. -/
structure HttpResponse where
  status : Nat
  code : String
deriving DecidableEq

/-- Shallow embedding of `saveVapiCallLog` (vapi.Controller.js lines
441-547).  `now` is `Date.now()` used inside `decryptPayload`, `tsStr` the
ISO receipt timestamp, `db` the Firestore collection.  Returns the
response, the updated collection and the event trace.  The controller maps
a `REPLAY_ATTACK_DETECTED` code to status 403 and every other decryption
failure to 400 (the `SIGNATURE_MISMATCH` branch at line 467 is dead code:
`decryptPayload` never returns that code).  A truthy non-string `callId`
makes `doc(payload.callId)` throw, caught by the outer handler as a 500. -/
def saveVapiCallLog (requestBody : Envelope) (now : Int) (tsStr : String)
    (db : Store) : HttpResponse × Store × List Ev :=
  if truthyEnc requestBody.encrypted = false then
    ({ status := 400, code := "UNENCRYPTED_DATA" }, db, [])
  else
    match decryptPayload requestBody now with
    | (.decryptionError _, evs) =>
      ({ status := 400, code := "DECRYPTION_ERROR" }, db, evs)
    | (.replay _ _, evs) =>
      ({ status := 403, code := "REPLAY_ATTACK_DETECTED" }, db, evs)
    | (.success payload, evs) =>
      if jsTruthy (jsGet payload "callId") = false then
        ({ status := 400, code := "MISSING_CALL_ID" }, db, evs)
      else
        match jsGet payload "callId" with
        | some (.str callId) =>
          ({ status := 200, code := "CALL_LOG_SAVED_ENCRYPTED" },
           storeSet db callId (persistedDoc payload tsStr), evs ++ [Ev.persistCall])
        | _ => ({ status := 500, code := "SERVER_ERROR" }, db, evs)

/-! Supporting lemmas about the association-list object operations. -/

theorem getField_eq_none_iff (fs : List (String × JVal)) (k : String) :
    getField fs k = none ↔ k ∉ fs.map Prod.fst := by
  induction fs with
  | nil => simp [getField]
  | cons p rest ih =>
    obtain ⟨k', v⟩ := p
    by_cases h : k' = k
    · subst h; simp [getField]
    · rw [getField, if_neg h, ih]
      simp only [List.map_cons, List.mem_cons, not_or]
      exact ⟨fun hn => ⟨fun hh => h hh.symm, hn⟩, fun hn => hn.2⟩

theorem getField_append_right (fs gs : List (String × JVal)) (k : String)
    (h : k ∉ fs.map Prod.fst) : getField (fs ++ gs) k = getField gs k := by
  induction fs with
  | nil => rfl
  | cons p rest ih =>
    obtain ⟨k', v⟩ := p
    simp only [List.map_cons, List.mem_cons, not_or] at h
    rw [List.cons_append, getField, if_neg (fun hh => h.1 hh.symm)]
    exact ih h.2

theorem setField_of_not_mem (fs : List (String × JVal)) (k : String) (v : JVal)
    (h : k ∉ fs.map Prod.fst) : setField fs k v = fs ++ [(k, v)] := by
  induction fs with
  | nil => rfl
  | cons p rest ih =>
    obtain ⟨k', v'⟩ := p
    simp only [List.map_cons, List.mem_cons, not_or] at h
    rw [setField, if_neg (fun hh => h.1 hh.symm), List.cons_append, ih h.2]

theorem deleteField_of_not_mem (fs : List (String × JVal)) (k : String)
    (h : k ∉ fs.map Prod.fst) : deleteField fs k = fs := by
  induction fs with
  | nil => rfl
  | cons p rest ih =>
    obtain ⟨k', v⟩ := p
    simp only [List.map_cons, List.mem_cons, not_or] at h
    rw [deleteField, if_neg (fun hh => h.1 hh.symm), ih h.2]

theorem deleteField_append (fs gs : List (String × JVal)) (k : String) :
    deleteField (fs ++ gs) k = deleteField fs k ++ deleteField gs k := by
  induction fs with
  | nil => rfl
  | cons p rest ih =>
    obtain ⟨k', v⟩ := p
    by_cases h : k' = k
    · simp [deleteField, h, ih]
    · simp [deleteField, h, ih]

theorem getField_setField_self (db : List (String × JVal)) (k : String) (v : JVal) :
    getField (setField db k v) k = some v := by
  induction db with
  | nil => simp [setField, getField]
  | cons p rest ih =>
    obtain ⟨k', v'⟩ := p
    by_cases h : k' = k
    · simp [setField, h, getField]
    · simp [setField, h, getField, ih]

theorem map_fst_setField_of_mem (db : List (String × JVal)) (k : String) (v : JVal)
    (h : k ∈ db.map Prod.fst) : (setField db k v).map Prod.fst = db.map Prod.fst := by
  induction db with
  | nil => simp at h
  | cons p rest ih =>
    obtain ⟨k', v'⟩ := p
    by_cases hk : k' = k
    · simp [setField, hk]
    · simp only [List.map_cons, List.mem_cons] at h
      rcases h with h | h

      · exact absurd h.symm hk
      · simp [setField, hk, ih h]

theorem map_fst_setField_of_not_mem (db : List (String × JVal)) (k : String) (v : JVal)
    (h : k ∉ db.map Prod.fst) : (setField db k v).map Prod.fst = db.map Prod.fst ++ [k] := by
  rw [setField_of_not_mem db k v h, List.map_append]
  rfl

/-! C1 — round-trip. -/

/-- C1: for every JSON object payload containing no `_timestamp` or
`_version` keys, encrypting it with `encryptPayload` and immediately (same
`Date.now()` value) passing the resulting envelope to `decryptPayload`
returns a success result whose data is exactly the original payload, and
`_timestamp` / `_version` are absent from the returned data. -/
theorem C1_round_trip (fs : List (String × JVal)) (now : Int) (salt : String)
    (h1 : "_timestamp" ∉ fs.map Prod.fst) (h2 : "_version" ∉ fs.map Prod.fst) :
    (decryptPayload (toEnvelope (encryptPayload (.obj fs) now salt)) now).1
        = DResult.success (.obj fs)
      ∧ (∀ d : JVal,
          (decryptPayload (toEnvelope (encryptPayload (.obj fs) now salt)) now).1
            = DResult.success d →
          jsGet d "_timestamp" = none ∧ jsGet d "_version" = none) := by
  have hvts : ("_version" : String) ≠ "_timestamp" := by decide
  have h2' : "_version" ∉ (fs ++ [("_timestamp", JVal.num now)]).map Prod.fst := by
    simp [h2, hvts]
  have hfs' : withMeta (JVal.obj fs) now
      = JVal.obj (fs ++ [("_timestamp", JVal.num now), ("_version", JVal.str "1.0")]) := by
    simp [withMeta, setField_of_not_mem _ _ _ h1, setField_of_not_mem _ _ _ h2']
  have hget : getField (fs ++ [("_timestamp", JVal.num now), ("_version", JVal.str "1.0")])
      "_timestamp" = some (JVal.num now) := by
    rw [getField_append_right _ _ _ h1]
    simp [getField]
  have hdel : deleteField (deleteField
      (fs ++ [("_timestamp", JVal.num now), ("_version", JVal.str "1.0")]) "_timestamp")
      "_version" = fs := by
    rw [deleteField_append, deleteField_of_not_mem _ _ h1, deleteField_append,
      deleteField_of_not_mem _ _ h2]
    simp [deleteField, hvts]
  have hmain : (decryptPayload (toEnvelope (encryptPayload (.obj fs) now salt)) now).1
      = DResult.success (.obj fs) := by
    simp only [toEnvelope, encryptPayload, decryptPayload, decryptAfterSig, hfs']
    simp only [afterParse, jsGet, hget, jsSubTs, jsDelete, hdel, sub_self, maxAge]
    norm_num
  refine ⟨hmain, fun d hd => ?_⟩
  rw [hmain] at hd
  cases hd
  exact ⟨(getField_eq_none_iff fs "_timestamp").mpr h1,
    (getField_eq_none_iff fs "_version").mpr h2⟩

/-! Trace lemmas: `afterParse` never extends the trace, the result component
of `decryptAfterSig` does not depend on the accumulated trace, and no
decryption trace contains a persistence call. -/

theorem afterParse_trace (p : JVal) (now : Int) (evs : List Ev) :
    (afterParse p now evs).2 = evs := by
  unfold afterParse
  repeat' split
  all_goals rfl

theorem afterParse_fst_indep (p : JVal) (now : Int) (evs evs' : List Ev) :
    (afterParse p now evs).1 = (afterParse p now evs').1 := by
  unfold afterParse
  repeat' split
  all_goals rfl

theorem decryptAfterSig_sig_indep (e : Envelope) (x : Option SigVal) (now : Int)
    (evs : List Ev) :
    decryptAfterSig { e with signature := x } now evs = decryptAfterSig e now evs := rfl

theorem decryptAfterSig_split (e : Envelope) (now : Int) (evs : List Ev) (salt : String)
    (c : CipherText) (hs : e.salt = some salt) (he : e.encrypted = some (.ct c)) :
    (decryptAfterSig e now evs).1 = (decryptAfterSig e now []).1
      ∧ (decryptAfterSig e now evs).2 = evs ++ [Ev.kdfCall, Ev.decipherCall] := by
  rcases c with ⟨k, iv, plain⟩
  unfold decryptAfterSig
  simp only [hs, he]
  by_cases hk : k = deriveKey salt ∧ iv = ivString
  · rw [if_pos hk, if_pos hk]
    cases plain with
    | json p =>
      simp only []
      exact ⟨afterParse_fst_indep _ _ _ _, by rw [afterParse_trace]; simp⟩
    | rawStr s => simp
  · rw [if_neg hk, if_neg hk]
    simp

theorem persist_not_in_decrypt (e : Envelope) (now : Int) :
    Ev.persistCall ∉ (decryptPayload e now).2 := by
  unfold decryptPayload decryptAfterSig
  repeat' split
  all_goals simp [apply_ite Prod.snd, afterParse_trace]

/-! C2 — freshness rejection. -/

/-- C2: for every envelope that decrypts and parses successfully to an
object with an integer `_timestamp`, if `now - _timestamp > 300000` ms then
ingestion returns the `REPLAY_ATTACK_DETECTED` error (status 403), the
store is unchanged and no persistence call is made; if
`now - _timestamp ≤ 300000` ms then `decryptPayload` proceeds past the
freshness check and returns the success result. -/
theorem C2_freshness (e : Envelope) (salt : String) (fs : List (String × JVal))
    (ts now : Int) (tsStr : String) (db : Store)
    (hs : e.salt = some salt)
    (he : e.encrypted = some (.ct (.enc (deriveKey salt) ivString (.json (.obj fs)))))
    (hts : getField fs "_timestamp" = some (.num ts)) :
    (now - ts > maxAge →
       (saveVapiCallLog e now tsStr db).1
           = { status := 403, code := "REPLAY_ATTACK_DETECTED" }
         ∧ (saveVapiCallLog e now tsStr db).2.1 = db
         ∧ Ev.persistCall ∉ (saveVapiCallLog e now tsStr db).2.2)
    ∧ (now - ts ≤ maxAge →
       (decryptPayload e now).1
         = DResult.success (jsDelete (jsDelete (JVal.obj fs) "_timestamp") "_version")) := by
  have hdp : ∃ evs : List Ev, decryptPayload e now = afterParse (JVal.obj fs) now evs
      ∧ Ev.persistCall ∉ evs := by
    rcases hsig : e.signature with _ | sig
    · refine ⟨[Ev.kdfCall, Ev.decipherCall], ?_, by decide⟩
      simp [decryptPayload, hsig, decryptAfterSig, hs, he]
    · refine ⟨[Ev.hmacCall, Ev.kdfCall, Ev.decipherCall], ?_, by decide⟩
      simp [decryptPayload, hsig, he, decryptAfterSig, hs]
  obtain ⟨evs, hdp1, hdp2⟩ := hdp
  constructor
  · intro hgt
    have har : afterParse (JVal.obj fs) now evs = (DResult.replay (now - ts) maxAge, evs) := by
      simp [afterParse, jsGet, hts, jsSubTs, hgt]
    simp [saveVapiCallLog, truthyEnc, he, hdp1, har, hdp2]
  · intro hle
    rw [hdp1]
    have : ¬ now - ts > maxAge := not_lt.mpr hle
    simp [afterParse, jsGet, hts, jsSubTs, this]

/-- Witness for C2: a payload stamped at 100 ms, decrypted at 400101 ms
(age 400001 ms) is rejected as a replay; at 300100 ms (age 300000 ms) it
passes the freshness check. -/
theorem C2_freshness_witness :
    (Envelope.mk (some (.ct (.enc (deriveKey "aa") ivString
        (.json (.obj [("callId", JVal.str "c"), ("_timestamp", JVal.num 100)])))))
        (some "aa") none none none).salt = some "aa"
    ∧ getField [("callId", JVal.str "c"), ("_timestamp", JVal.num 100)] "_timestamp"
        = some (JVal.num 100)
    ∧ ((400101 : Int) - 100 > maxAge →
       (saveVapiCallLog (Envelope.mk (some (.ct (.enc (deriveKey "aa") ivString
            (.json (.obj [("callId", JVal.str "c"), ("_timestamp", JVal.num 100)])))))
            (some "aa") none none none) 400101 "t" []).1
           = { status := 403, code := "REPLAY_ATTACK_DETECTED" }
         ∧ (saveVapiCallLog (Envelope.mk (some (.ct (.enc (deriveKey "aa") ivString
            (.json (.obj [("callId", JVal.str "c"), ("_timestamp", JVal.num 100)])))))
            (some "aa") none none none) 400101 "t" []).2.1 = []
         ∧ Ev.persistCall ∉ (saveVapiCallLog (Envelope.mk (some (.ct (.enc (deriveKey "aa")
            ivString (.json (.obj [("callId", JVal.str "c"), ("_timestamp", JVal.num 100)])))))
            (some "aa") none none none) 400101 "t" []).2.2) :=
  ⟨rfl, rfl,
    (C2_freshness _ "aa" [("callId", JVal.str "c"), ("_timestamp", JVal.num 100)] 100
      400101 "t" [] rfl rfl rfl).1⟩

/-! C3 — non-fatal signature policy. -/

/-- C3: for an envelope whose ciphertext-bearing `encrypted` field holds a
well-formed ciphertext and whose `signature` does not match the HMAC
recomputed over that ciphertext, the decryption result and the ingestion
response and store are identical to a run with no signature at all; key
derivation and decryption are still performed (both calls appear in the
trace), and whenever the unsigned run persists, the mismatched-signature
run persists too.  A signature mismatch alone therefore never produces a
`DecryptionError` and never blocks persistence. -/
theorem C3_signature_nonfatal (e : Envelope) (c : CipherText) (sig : SigVal)
    (salt : String) (now : Int) (tsStr : String) (db : Store)
    (he : e.encrypted = some (.ct c))
    (hs : e.salt = some salt)
    (hsig : e.signature = some sig)
    (hmis : sig ≠ SigVal.hmacSha256 ENCRYPTION_KEY c) :
    (decryptPayload e now).1 = (decryptPayload { e with signature := none } now).1
    ∧ (saveVapiCallLog e now tsStr db).1
        = (saveVapiCallLog { e with signature := none } now tsStr db).1
    ∧ (saveVapiCallLog e now tsStr db).2.1
        = (saveVapiCallLog { e with signature := none } now tsStr db).2.1
    ∧ Ev.kdfCall ∈ (decryptPayload e now).2
    ∧ Ev.decipherCall ∈ (decryptPayload e now).2
    ∧ (Ev.persistCall ∈ (saveVapiCallLog { e with signature := none } now tsStr db).2.2 →
        Ev.persistCall ∈ (saveVapiCallLog e now tsStr db).2.2) := by
  have h1 : decryptPayload e now = decryptAfterSig e now [Ev.hmacCall] := by
    simp [decryptPayload, hsig, he]
  have h2 : decryptPayload { e with signature := none } now = decryptAfterSig e now [] := by
    simp [decryptPayload, decryptAfterSig_sig_indep]
  obtain ⟨hfst, htr⟩ := decryptAfterSig_split e now [Ev.hmacCall] salt c hs he
  obtain ⟨-, htr0⟩ := decryptAfterSig_split e now [] salt c hs he
  have hres : (decryptPayload e now).1 = (decryptPayload { e with signature := none } now).1 := by
    rw [h1, h2, hfst]
  have hmem : Ev.kdfCall ∈ (decryptPayload e now).2
      ∧ Ev.decipherCall ∈ (decryptPayload e now).2 := by
    rw [h1, htr]; exact ⟨by simp, by simp⟩
  have henc : ({ e with signature := none } : Envelope).encrypted = e.encrypted := rfl
  have hsave : (saveVapiCallLog e now tsStr db).1
        = (saveVapiCallLog { e with signature := none } now tsStr db).1
      ∧ (saveVapiCallLog e now tsStr db).2.1
        = (saveVapiCallLog { e with signature := none } now tsStr db).2.1
      ∧ (Ev.persistCall ∈ (saveVapiCallLog { e with signature := none } now tsStr db).2.2 →
          Ev.persistCall ∈ (saveVapiCallLog e now tsStr db).2.2) := by
    unfold saveVapiCallLog
    rw [henc, h1, h2]
    rcases hds1 : decryptAfterSig e now [Ev.hmacCall] with ⟨d1, t1⟩
    rcases hds0 : decryptAfterSig e now [] with ⟨d0, t0⟩
    have hd : d1 = d0 := by
      have := hfst
      rw [hds1, hds0] at this
      exact this
    subst hd
    have ht1 : t1 = [Ev.hmacCall, Ev.kdfCall, Ev.decipherCall] := by
      have := htr
      rw [hds1] at this
      simpa using this
    have ht0 : t0 = [Ev.kdfCall, Ev.decipherCall] := by
      have := htr0
      rw [hds0] at this
      simpa using this
    have hteq : truthyEnc e.encrypted = true := by rw [he]; rfl
    cases d1 with
    | success payload =>
      rcases hcid : jsGet payload "callId" with _ | cv
      · simp [hteq, hcid, jsTruthy, ht1, ht0]
      · cases cv with
        | str s =>
          by_cases hse : s = ""
          · simp [hteq, hcid, jsTruthy, hse, ht1, ht0]
          · simp [hteq, hcid, jsTruthy, hse, ht1, ht0]
        | null => simp [hteq, hcid, jsTruthy, ht1, ht0]
        | bool b => cases b <;> simp [hteq, hcid, jsTruthy, ht1, ht0]
        | num n =>
          by_cases hn : n = 0
          · simp [hteq, hcid, jsTruthy, hn, ht1, ht0]
          · simp [hteq, hcid, jsTruthy, hn, ht1, ht0]
        | arr xs => simp [hteq, hcid, jsTruthy, ht1, ht0]
        | obj gs => simp [hteq, hcid, jsTruthy, ht1, ht0]
    | replay a m => simp [hteq, ht1, ht0]
    | decryptionError msg => simp [hteq, ht1, ht0]
  exact ⟨hres, hsave.1, hsave.2.1, hmem.1, hmem.2, hsave.2.2⟩

/-- Witness for C3: a client-supplied signature `"00"` that cannot equal the
recomputed HMAC still yields the same decryption result as no signature. -/
theorem C3_signature_nonfatal_witness :
    SigVal.raw "00" ≠ SigVal.hmacSha256 ENCRYPTION_KEY
        (CipherText.enc (deriveKey "aa") ivString
          (Plain.json (.obj [("callId", JVal.str "x")])))
    ∧ (decryptPayload (Envelope.mk
          (some (.ct (CipherText.enc (deriveKey "aa") ivString
            (Plain.json (.obj [("callId", JVal.str "x")])))))
          (some "aa") (some (SigVal.raw "00")) none none) 0).1
      = (decryptPayload (Envelope.mk
          (some (.ct (CipherText.enc (deriveKey "aa") ivString
            (Plain.json (.obj [("callId", JVal.str "x")])))))
          (some "aa") none none none) 0).1 :=
  ⟨fun h => SigVal.noConfusion h,
    (C3_signature_nonfatal (Envelope.mk
        (some (.ct (CipherText.enc (deriveKey "aa") ivString
          (Plain.json (.obj [("callId", JVal.str "x")])))))
        (some "aa") (some (SigVal.raw "00")) none none)
      (CipherText.enc (deriveKey "aa") ivString
        (Plain.json (.obj [("callId", JVal.str "x")])))
      (SigVal.raw "00") "aa" 0 "t" [] rfl rfl rfl
      (fun h => SigVal.noConfusion h)).1⟩

/-! C4 — unencrypted rejection. -/

/-- C4: for every request whose `encrypted` field is absent or `false`,
ingestion returns status 400 with code `UNENCRYPTED_DATA`, leaves the store
unchanged, and records an empty event trace — zero calls to the HMAC,
key-derivation, cipher or persistence collaborators. -/
theorem C4_unencrypted (e : Envelope) (now : Int) (tsStr : String) (db : Store)
    (h : e.encrypted = none ∨ e.encrypted = some (.bool false)) :
    saveVapiCallLog e now tsStr db
      = ({ status := 400, code := "UNENCRYPTED_DATA" }, db, []) := by
  rcases h with h | h <;> simp [saveVapiCallLog, truthyEnc, h]

/-- Witness for C4: an envelope with no `encrypted` field at all. -/
theorem C4_unencrypted_witness :
    (Envelope.mk none (some "aa") none none none).encrypted = none
    ∧ saveVapiCallLog (Envelope.mk none (some "aa") none none none) 0 "t" []
        = ({ status := 400, code := "UNENCRYPTED_DATA" }, [], []) :=
  ⟨rfl, C4_unencrypted (Envelope.mk none (some "aa") none none none) 0 "t" [] (Or.inl rfl)⟩

/-! C5 — wire envelope shape.  The claim says the ciphertext travels in a
field named `encryptedData` or `ciphertext`, distinct from the boolean
`encrypted` flag, and that decryption reads it from there.  On the code the
`encrypted` field itself carries the hex ciphertext (encryptPayload returns
`encrypted: <hex>` and decryptPayload deciphers the `encrypted` value);
`encryptedData` is never read. -/

/-- C5 counterexample: an envelope in the claimed wire shape — boolean
`encrypted: true` flag plus a perfectly valid ciphertext in `encryptedData`
— fails with `DECRYPTION_ERROR`, while the same ciphertext placed in the
`encrypted` field itself decrypts successfully.  So the decryption path
does not read the ciphertext from `encryptedData`. -/
theorem C5_counterexample :
    ((decryptPayload (Envelope.mk (some (.bool true)) (some "aa") none none
        (some (.ct (CipherText.enc (deriveKey "aa") ivString
          (Plain.json (.obj [("callId", JVal.str "x")])))))) 0).1).code
      = "DECRYPTION_ERROR"
    ∧ (decryptPayload (Envelope.mk
        (some (.ct (CipherText.enc (deriveKey "aa") ivString
          (Plain.json (.obj [("callId", JVal.str "x")])))))
        (some "aa") none none none) 0).1
      = DResult.success (.obj [("callId", JVal.str "x")]) :=
  ⟨rfl, rfl⟩

/-- C5 (amended): an accepted envelope carries its hex ciphertext in the
`encrypted` field itself, which doubles as the truthiness-checked flag; the
decryption path reads the ciphertext from `encrypted` and ignores the
`encryptedData` field entirely (and there is no `ciphertext` field in the
path at all). -/
theorem C5_reads_encrypted_field (e : Envelope) (now : Int) (x y : Option EncField) :
    decryptPayload { e with encryptedData := x } now
        = decryptPayload { e with encryptedData := y } now
    ∧ (∀ d : JVal, (decryptPayload e now).1 = DResult.success d →
        ∃ c : CipherText, e.encrypted = some (.ct c)) := by
  constructor
  · rfl
  · intro d hd
    rcases he : e.encrypted with _ | f
    · exfalso
      rcases hsg : e.signature with _ | s <;> rcases hsl : e.salt with _ | sl <;>
        simp [decryptPayload, decryptAfterSig, hsg, he, hsl] at hd
    · cases f with
      | ct c => exact ⟨c, rfl⟩
      | bool b =>
        exfalso
        rcases hsg : e.signature with _ | s <;> rcases hsl : e.salt with _ | sl <;>
          simp [decryptPayload, decryptAfterSig, hsg, he, hsl] at hd
      | str s2 =>
        exfalso
        rcases hsg : e.signature with _ | s <;> rcases hsl : e.salt with _ | sl <;>
          simp [decryptPayload, decryptAfterSig, hsg, he, hsl] at hd

/-- Witness for C5's amended theorem: a successful decryption whose
envelope indeed held the ciphertext in `encrypted`. -/
theorem C5_reads_encrypted_field_witness :
    (decryptPayload (Envelope.mk
        (some (.ct (CipherText.enc (deriveKey "cc") ivString
          (Plain.json (.obj [("callId", JVal.str "w")])))))
        (some "cc") none none none) 0).1
      = DResult.success (.obj [("callId", JVal.str "w")])
    ∧ ∃ c : CipherText,
        (Envelope.mk
          (some (.ct (CipherText.enc (deriveKey "cc") ivString
            (Plain.json (.obj [("callId", JVal.str "w")])))))
          (some "cc") none none none).encrypted = some (.ct c) :=
  ⟨rfl,
    (C5_reads_encrypted_field (Envelope.mk
        (some (.ct (CipherText.enc (deriveKey "cc") ivString
          (Plain.json (.obj [("callId", JVal.str "w")])))))
        (some "cc") none none none) 0 none none).2
      (.obj [("callId", JVal.str "w")]) rfl⟩

/-! C6 — key derivation parameters. -/

/-- C6: the symmetric key is a pure function of the process-wide shared
secret and the envelope's salt, obtained by PBKDF2 with exactly 1000
iterations, SHA-256 digest and 32-byte output; the encrypt path embeds
exactly this key in the ciphertext it produces, and the decrypt path
succeeds only when the ciphertext was produced under this key. -/
theorem C6_key_derivation (salt : String) (payload : JVal) (now : Int) :
    deriveKey salt = DerivedKey.pbkdf2 ENCRYPTION_KEY salt 1000 32 "sha256"
    ∧ (encryptPayload payload now salt).encrypted
        = CipherText.enc (deriveKey salt) ivString (Plain.json (withMeta payload now))
    ∧ (∀ (e : Envelope) (k : DerivedKey) (iv : String) (pt : Plain) (n : Int) (d : JVal),
        e.salt = some salt → e.encrypted = some (.ct (.enc k iv pt)) →
        (decryptPayload e n).1 = DResult.success d → k = deriveKey salt) := by
  refine ⟨rfl, rfl, ?_⟩
  intro e k iv pt n d hs he hd
  by_contra hk
  rcases hsg : e.signature with _ | s <;>
    simp [decryptPayload, decryptAfterSig, hsg, he, hs, hk] at hd

/-- Witness for C6: a concrete successful decryption under the derived key. -/
theorem C6_key_derivation_witness :
    (decryptPayload (Envelope.mk
        (some (.ct (CipherText.enc (deriveKey "dd") ivString
          (Plain.json (.obj [("callId", JVal.str "y")])))))
        (some "dd") none none none) 5).1
      = DResult.success (.obj [("callId", JVal.str "y")])
    ∧ deriveKey "dd" = deriveKey "dd" :=
  ⟨rfl,
    (C6_key_derivation "dd" (JVal.obj []) 0).2.2
      (Envelope.mk
        (some (.ct (CipherText.enc (deriveKey "dd") ivString
          (Plain.json (.obj [("callId", JVal.str "y")])))))
        (some "dd") none none none)
      (deriveKey "dd") ivString (Plain.json (.obj [("callId", JVal.str "y")])) 5
      (.obj [("callId", JVal.str "y")]) rfl rfl rfl⟩

/-! C7 — fixed deterministic IV. -/

/-- C7: the IV is computed deterministically from the fixed configuration
string, right-padded with `0` and truncated to exactly 16 bytes (here: the
concrete value `"restaurant_ai_in"`, 16 ASCII characters); every encryption
embeds exactly this IV, decryption ignores any `iv` field of the envelope,
and decryption succeeds only for ciphertexts produced under this IV — so
the IV is identical across all messages and never taken from the
envelope. -/
theorem C7_fixed_iv :
    ivString = "restaurant_ai_in"
    ∧ ivString.length = 16
    ∧ (∀ (p : JVal) (n : Int) (s : String),
        (encryptPayload p n s).encrypted
          = CipherText.enc (deriveKey s) ivString (Plain.json (withMeta p n)))
    ∧ (∀ (e : Envelope) (x y : Option String) (n : Int),
        decryptPayload { e with iv := x } n = decryptPayload { e with iv := y } n)
    ∧ (∀ (e : Envelope) (k : DerivedKey) (iv : String) (pt : Plain) (n : Int) (d : JVal),
        e.encrypted = some (.ct (.enc k iv pt)) →
        (decryptPayload e n).1 = DResult.success d → iv = ivString) := by
  refine ⟨by decide, by decide, fun p n s => rfl, fun e x y n => rfl, ?_⟩
  intro e k iv pt n d he hd
  by_contra hiv
  rcases hsg : e.signature with _ | s <;> rcases hsl : e.salt with _ | sl <;>
    simp [decryptPayload, decryptAfterSig, hsg, he, hsl, hiv] at hd

/-- Witness for C7: a successful decryption whose ciphertext carries the
fixed IV. -/
theorem C7_fixed_iv_witness :
    (decryptPayload (Envelope.mk
        (some (.ct (CipherText.enc (deriveKey "ee") ivString
          (Plain.json (.obj [("callId", JVal.str "z")])))))
        (some "ee") none none none) 7).1
      = DResult.success (.obj [("callId", JVal.str "z")])
    ∧ ivString = ivString :=
  ⟨rfl,
    C7_fixed_iv.2.2.2.2
      (Envelope.mk
        (some (.ct (CipherText.enc (deriveKey "ee") ivString
          (Plain.json (.obj [("callId", JVal.str "z")])))))
        (some "ee") none none none)
      (deriveKey "ee") ivString (Plain.json (.obj [("callId", JVal.str "z")])) 7
      (.obj [("callId", JVal.str "z")]) rfl rfl⟩

/-! C8 — totality and error classification. -/

/-- C8: for every input envelope `decryptPayload` returns one of the three
structured results (success / replay / decryption error) and never
propagates an exception; in particular a non-ciphertext string (bad hex or
bad padding), a ciphertext under the wrong key, and a plaintext that is not
valid JSON after an apparently successful cipher operation all yield a
result with code `DECRYPTION_ERROR`. -/
theorem C8_totality (e : Envelope) (now : Int) :
    ((decryptPayload e now).1.code = "DECRYPTION_SUCCESS"
      ∨ (decryptPayload e now).1.code = "REPLAY_ATTACK_DETECTED"
      ∨ (decryptPayload e now).1.code = "DECRYPTION_ERROR")
    ∧ (∀ s : String, e.encrypted = some (.str s) →
        (decryptPayload e now).1.code = "DECRYPTION_ERROR")
    ∧ (∀ (k : DerivedKey) (iv : String) (pt : Plain),
        e.encrypted = some (.ct (.enc k iv pt)) →
        (∀ s : String, e.salt = some s → k ≠ deriveKey s) →
        (decryptPayload e now).1.code = "DECRYPTION_ERROR")
    ∧ (∀ (k : DerivedKey) (iv : String) (s : String),
        e.encrypted = some (.ct (.enc k iv (Plain.rawStr s))) →
        (decryptPayload e now).1.code = "DECRYPTION_ERROR") := by
  refine ⟨?_, ?_, ?_, ?_⟩
  · rcases h : (decryptPayload e now).1 <;> simp [DResult.code]
  · intro s he
    rcases hsg : e.signature with _ | sg <;> rcases hsl : e.salt with _ | sl <;>
      simp [decryptPayload, decryptAfterSig, DResult.code, hsg, hsl, he]
  · intro k iv pt he hk
    rcases hsl : e.salt with _ | sl
    · rcases hsg : e.signature with _ | sg <;>
        simp [decryptPayload, decryptAfterSig, DResult.code, hsg, hsl, he]
    · have hk' : k ≠ deriveKey sl := hk sl hsl
      rcases hsg : e.signature with _ | sg <;>
        simp [decryptPayload, decryptAfterSig, DResult.code, hsg, hsl, he, hk']
  · intro k iv s he
    rcases hsl : e.salt with _ | sl
    · rcases hsg : e.signature with _ | sg <;>
        simp [decryptPayload, decryptAfterSig, DResult.code, hsg, hsl, he]
    · by_cases hk : k = deriveKey sl ∧ iv = ivString
      · rcases hsg : e.signature with _ | sg <;>
          simp [decryptPayload, decryptAfterSig, DResult.code, hsg, hsl, he, hk]
      · rcases hsg : e.signature with _ | sg <;>
          simp [decryptPayload, decryptAfterSig, DResult.code, hsg, hsl, he, hk]

/-- Witness for C8: a non-ciphertext hex string is classified as a
decryption error. -/
theorem C8_totality_witness :
    (Envelope.mk (some (.str "zz")) (some "aa") none none none).encrypted
        = some (.str "zz")
    ∧ ((decryptPayload
        (Envelope.mk (some (.str "zz")) (some "aa") none none none) 0).1).code
          = "DECRYPTION_ERROR" :=
  ⟨rfl,
    (C8_totality (Envelope.mk (some (.str "zz")) (some "aa") none none none) 0).2.1
      "zz" rfl⟩

/-- Witness for C1 at the concrete scenario of spec section 8: payload
`{callId: "call_1", duration: 42}`. -/
theorem C1_round_trip_witness :
    ("_timestamp" ∉ ([("callId", JVal.str "call_1"), ("duration", JVal.num 42)]).map
        Prod.fst
      ∧ "_version" ∉ ([("callId", JVal.str "call_1"), ("duration", JVal.num 42)]).map
        Prod.fst)
    ∧ (decryptPayload (toEnvelope (encryptPayload
        (.obj [("callId", JVal.str "call_1"), ("duration", JVal.num 42)]) 1000
        "00000000000000000000000000000000")) 1000).1
      = DResult.success (.obj [("callId", JVal.str "call_1"), ("duration", JVal.num 42)]) :=
  ⟨⟨by decide, by decide⟩,
    (C1_round_trip [("callId", JVal.str "call_1"), ("duration", JVal.num 42)] 1000
      "00000000000000000000000000000000" (by decide) (by decide)).1⟩

/-! Store lemmas: a keyed overwrite leaves exactly one record under the
key. -/

theorem countKey_storeSet_self (db : Store) (k : String) (v : JVal) :
    countKey (storeSet db k v) k = if countKey db k = 0 then 1 else countKey db k := by
  by_cases h : k ∈ db.map Prod.fst
  · have hpos : countKey db k ≠ 0 := by
      simpa [countKey, List.count_eq_zero] using h
    rw [if_neg hpos]
    unfold countKey storeSet
    rw [map_fst_setField_of_mem db k v h]
  · have hz : countKey db k = 0 := by
      simpa [countKey, List.count_eq_zero] using h
    rw [if_pos hz]
    unfold countKey storeSet
    rw [map_fst_setField_of_not_mem db k v h]
    have hz' : (db.map Prod.fst).count k = 0 := hz
    simp [List.count_append, hz']

/-! C9 — idempotent keyed upsert. -/

/-- C9: ingesting two valid envelopes whose decrypted payloads share the
same truthy string `callId`, starting from a store with no record under
that id, leaves exactly one persisted record under the id, and that record
is the persisted document of the second payload — a keyed overwrite, not a
duplicate insert. -/
theorem C9_idempotent_upsert (e1 e2 : Envelope) (n1 n2 : Int) (t1 t2 : String)
    (db : Store) (p1 p2 : JVal) (cid : String) (ev1 ev2 : List Ev)
    (h1 : decryptPayload e1 n1 = (DResult.success p1, ev1))
    (h2 : decryptPayload e2 n2 = (DResult.success p2, ev2))
    (henc1 : truthyEnc e1.encrypted = true)
    (henc2 : truthyEnc e2.encrypted = true)
    (hc1 : jsGet p1 "callId" = some (JVal.str cid))
    (hc2 : jsGet p2 "callId" = some (JVal.str cid))
    (hcid : cid ≠ "")
    (hdb : countKey db cid = 0) :
    countKey (saveVapiCallLog e2 n2 t2 (saveVapiCallLog e1 n1 t1 db).2.1).2.1 cid = 1
    ∧ storeGet (saveVapiCallLog e2 n2 t2 (saveVapiCallLog e1 n1 t1 db).2.1).2.1 cid
        = some (persistedDoc p2 t2) := by
  have hs1 : (saveVapiCallLog e1 n1 t1 db).2.1 = storeSet db cid (persistedDoc p1 t1) := by
    simp [saveVapiCallLog, henc1, h1, hc1, jsTruthy, hcid]
  have hs2 : ∀ d : Store,
      (saveVapiCallLog e2 n2 t2 d).2.1 = storeSet d cid (persistedDoc p2 t2) := by
    intro d
    simp [saveVapiCallLog, henc2, h2, hc2, jsTruthy, hcid]
  rw [hs1, hs2]
  have hc1' : countKey (storeSet db cid (persistedDoc p1 t1)) cid = 1 := by
    rw [countKey_storeSet_self, if_pos hdb]
  constructor
  · rw [countKey_storeSet_self, hc1']
    norm_num
  · exact getField_setField_self _ _ _

/-- Witness for C9: two envelopes carrying payloads with `callId "call_1"`
and durations 1 and 2; the store ends with one record holding duration 2. -/
theorem C9_idempotent_upsert_witness :
    decryptPayload (Envelope.mk
        (some (.ct (CipherText.enc (deriveKey "s1") ivString
          (Plain.json (.obj [("callId", JVal.str "call_1"), ("duration", JVal.num 1)])))))
        (some "s1") none none none) 0
      = (DResult.success (.obj [("callId", JVal.str "call_1"), ("duration", JVal.num 1)]),
         [Ev.kdfCall, Ev.decipherCall])
    ∧ countKey (saveVapiCallLog (Envelope.mk
        (some (.ct (CipherText.enc (deriveKey "s2") ivString
          (Plain.json (.obj [("callId", JVal.str "call_1"), ("duration", JVal.num 2)])))))
        (some "s2") none none none) 0 "t2"
        (saveVapiCallLog (Envelope.mk
          (some (.ct (CipherText.enc (deriveKey "s1") ivString
            (Plain.json (.obj [("callId", JVal.str "call_1"), ("duration", JVal.num 1)])))))
          (some "s1") none none none) 0 "t1" []).2.1).2.1 "call_1" = 1
    ∧ storeGet (saveVapiCallLog (Envelope.mk
        (some (.ct (CipherText.enc (deriveKey "s2") ivString
          (Plain.json (.obj [("callId", JVal.str "call_1"), ("duration", JVal.num 2)])))))
        (some "s2") none none none) 0 "t2"
        (saveVapiCallLog (Envelope.mk
          (some (.ct (CipherText.enc (deriveKey "s1") ivString
            (Plain.json (.obj [("callId", JVal.str "call_1"), ("duration", JVal.num 1)])))))
          (some "s1") none none none) 0 "t1" []).2.1).2.1 "call_1"
      = some (persistedDoc
          (.obj [("callId", JVal.str "call_1"), ("duration", JVal.num 2)]) "t2") :=
  ⟨rfl, by
    have h := C9_idempotent_upsert
      (Envelope.mk
        (some (.ct (CipherText.enc (deriveKey "s1") ivString
          (Plain.json (.obj [("callId", JVal.str "call_1"), ("duration", JVal.num 1)])))))
        (some "s1") none none none)
      (Envelope.mk
        (some (.ct (CipherText.enc (deriveKey "s2") ivString
          (Plain.json (.obj [("callId", JVal.str "call_1"), ("duration", JVal.num 2)])))))
        (some "s2") none none none)
      0 0 "t1" "t2" []
      (.obj [("callId", JVal.str "call_1"), ("duration", JVal.num 1)])
      (.obj [("callId", JVal.str "call_1"), ("duration", JVal.num 2)])
      "call_1" [Ev.kdfCall, Ev.decipherCall] [Ev.kdfCall, Ev.decipherCall]
      rfl rfl rfl rfl rfl rfl (by decide) rfl
    exact h.1, by
    have h := C9_idempotent_upsert
      (Envelope.mk
        (some (.ct (CipherText.enc (deriveKey "s1") ivString
          (Plain.json (.obj [("callId", JVal.str "call_1"), ("duration", JVal.num 1)])))))
        (some "s1") none none none)
      (Envelope.mk
        (some (.ct (CipherText.enc (deriveKey "s2") ivString
          (Plain.json (.obj [("callId", JVal.str "call_1"), ("duration", JVal.num 2)])))))
        (some "s2") none none none)
      0 0 "t1" "t2" []
      (.obj [("callId", JVal.str "call_1"), ("duration", JVal.num 1)])
      (.obj [("callId", JVal.str "call_1"), ("duration", JVal.num 2)])
      "call_1" [Ev.kdfCall, Ev.decipherCall] [Ev.kdfCall, Ev.decipherCall]
      rfl rfl rfl rfl rfl rfl (by decide) rfl
    exact h.2⟩

/-! C10 — missing timestamp bypasses the freshness guard. -/

/-- C10: when the plaintext decrypts and parses to a JSON object with no
`_timestamp` field, the age `now - undefined` is NaN, the replay comparison
is false, and `decryptPayload` returns a success result — for every value
of `now`, so the freshness check is silently skipped, and the result does
not depend on the clock at all. -/
theorem C10_missing_timestamp (e : Envelope) (salt : String)
    (fs : List (String × JVal)) (now : Int)
    (hs : e.salt = some salt)
    (he : e.encrypted = some (.ct (.enc (deriveKey salt) ivString (.json (.obj fs)))))
    (hts : getField fs "_timestamp" = none) :
    (decryptPayload e now).1 = DResult.success (JVal.obj (deleteField fs "_version"))
    ∧ (∀ n1 n2 : Int, (decryptPayload e n1).1 = (decryptPayload e n2).1) := by
  have hnm := (getField_eq_none_iff fs "_timestamp").mp hts
  have hdel : deleteField fs "_timestamp" = fs := deleteField_of_not_mem fs _ hnm
  have key : ∀ n : Int,
      (decryptPayload e n).1 = DResult.success (JVal.obj (deleteField fs "_version")) := by
    intro n
    rcases hsg : e.signature with _ | sg <;>
      simp [decryptPayload, decryptAfterSig, hsg, hs, he, afterParse, jsGet, hts,
        jsSubTs, jsDelete, hdel]
  exact ⟨key now, fun n1 n2 => (key n1).trans (key n2).symm⟩

/-- Witness for C10: a payload with no `_timestamp` decrypts successfully
even at an arbitrarily late clock value. -/
theorem C10_missing_timestamp_witness :
    getField [("callId", JVal.str "w")] "_timestamp" = none
    ∧ (decryptPayload (Envelope.mk
        (some (.ct (CipherText.enc (deriveKey "ff") ivString
          (Plain.json (.obj [("callId", JVal.str "w")])))))
        (some "ff") none none none) 999999999999).1
      = DResult.success (JVal.obj (deleteField [("callId", JVal.str "w")] "_version")) :=
  ⟨rfl,
    (C10_missing_timestamp (Envelope.mk
        (some (.ct (CipherText.enc (deriveKey "ff") ivString
          (Plain.json (.obj [("callId", JVal.str "w")])))))
        (some "ff") none none none) "ff" [("callId", JVal.str "w")] 999999999999
      rfl rfl rfl).1⟩

end NoirBackend
